import Mathlib

/-!
Verification of the pipeline concurrency core of the repository
(packages pipeline and dataflow).

The pipeline package (ActionBlock, TransformBlock, BufferBlock, BlockOptions,
RetryPolicy, Target) is embedded as executable Lean functions, translated
directly from the Go source.  Worker loops are modelled at concurrency
degree 1 as structural recursion over the (finite) list of messages the
input channel delivers before it is closed; user functions are modelled as
attempt-indexed outcome functions, so that stateful test functions (failing
depending on the invocation count) are expressible.  The dataflow variant
contributes ExponentialBackoff, whose Go int64 arithmetic is modelled with
explicit wrapping modulo 2 to the 64.
-/

set_option maxHeartbeats 1000000

/-- Two's complement wrap of 64-bit signed integer arithmetic (Go int64 /
time.Duration): the representative of x modulo 2^64 lying in
[-2^63, 2^63). -/
def wrap64 (x : Int) : Int := (x + 2 ^ 63) % 2 ^ 64 - 2 ^ 63

namespace Pipeline

/-- Go errors, modelled by their message string. -/
abbrev Err := String

/-- RetryPolicy (src): MaxRetries is the total number of attempts including
the first; Backoff is the nominal backoff duration (Go time.Duration, an
int64 nanosecond count). -/
structure RetryPolicy where
  MaxRetries : Int
  Backoff : Int
deriving Repr, DecidableEq

/-- BlockOptions (src): configuration of a pipeline block. -/
structure BlockOptions where
  RetryPolicy : Option RetryPolicy
  ConcurrencyDegree : Int
  BufferSize : Int
deriving Repr, DecidableEq

/-- DefaultBlockOptions (src): no retry, one worker, unbuffered input. -/
def DefaultBlockOptions : BlockOptions :=
  { RetryPolicy := none, ConcurrencyDegree := 1, BufferSize := 0 }

/-- Option (src): a function that configures BlockOptions. -/
def BlockOption := BlockOptions → BlockOptions

/-- WithRetryPolicy (src). -/
def WithRetryPolicy (policy : RetryPolicy) : BlockOption :=
  fun o => { o with RetryPolicy := some policy }

/-- WithConcurrencyDegree (src): only positive degrees take effect. -/
def WithConcurrencyDegree (degree : Int) : BlockOption :=
  fun o => if degree > 0 then { o with ConcurrencyDegree := degree } else o

/-- WithBufferSize (src): only positive sizes take effect. -/
def WithBufferSize (size : Int) : BlockOption :=
  fun o => if size > 0 then { o with BufferSize := size } else o

/-- applyOptions (src): fold the option functions over the defaults. -/
def applyOptions (opts : List BlockOption) : BlockOptions :=
  opts.foldl (fun o f => f o) DefaultBlockOptions

instance {ε α : Type} [DecidableEq ε] [DecidableEq α] : DecidableEq (Except ε α) :=
  fun a b =>
    match a, b with
    | Except.ok x, Except.ok y => decidable_of_iff (x = y) (by simp)
    | Except.error e, Except.error g => decidable_of_iff (e = g) (by simp)
    | Except.ok _, Except.error _ => isFalse (by simp)
    | Except.error _, Except.ok _ => isFalse (by simp)

/-- The observable trace of one executeTransform/executeAction run: how many
times the user function was invoked, the backoff sleeps performed (in order,
as durations), and the final outcome. -/
structure RetryRun (α : Type) where
  calls : Nat
  waits : List Int
  result : Except Err α
deriving Repr, DecidableEq

/-- The retry loop shared (textually duplicated) by executeTransform and
executeAction (src): run the user function; stop on success; otherwise,
unless this was the last attempt, sleep
time.Duration(attempt+1) * Backoff — an int64 multiplication that wraps on
overflow, hence wrap64 — when Backoff > 0, and try again.  The Go loop
counter `for attempt := 0; attempt < maxAttempts; attempt++` is re-expressed
structurally through the number of remaining attempts
(remaining = maxAttempts - attempt, so the loop guard attempt < maxAttempts
becomes 0 < remaining and the last-attempt test attempt == maxAttempts-1
becomes remaining == 1).  `f i` is the outcome of the (i+1)-st invocation of
the user function; `lastE` models the Go loop variable lastErr. -/
def retryLoopFrom (f : Nat → Except Err α) (bo : Int) :
    (remaining : Nat) → (attempt : Nat) → (lastE : Err) → RetryRun α
  | 0, _, lastE => { calls := 0, waits := [], result := Except.error lastE }
  | 1, attempt, _ =>
    match f attempt with
    | Except.ok a => { calls := 1, waits := [], result := Except.ok a }
    | Except.error e => { calls := 1, waits := [], result := Except.error e }
  | remaining + 2, attempt, _ =>
    match f attempt with
    | Except.ok a => { calls := 1, waits := [], result := Except.ok a }
    | Except.error e =>
      let rest := retryLoopFrom f bo (remaining + 1) (attempt + 1) e
      { calls := 1 + rest.calls,
        waits := (if 0 < bo then [wrap64 (((attempt : Int) + 1) * bo)] else []) ++ rest.waits,
        result := rest.result }

/-- The retry wrapper shared by executeTransform and executeAction (src):
a single invocation when no retry policy is configured or MaxRetries is at
most 1, otherwise the retry loop over MaxRetries attempts. -/
def executeWithRetry (options : BlockOptions) (f : Nat → Except Err α) : RetryRun α :=
  match options.RetryPolicy with
  | none => { calls := 1, waits := [], result := f 0 }
  | some p =>
    if p.MaxRetries ≤ 1 then { calls := 1, waits := [], result := f 0 }
    else retryLoopFrom f p.Backoff p.MaxRetries.toNat 0 ""

/-- executeTransform (src TransformBlock): the transform function returns a
replacement value (Go interface value, possibly nil — modelled Option) or
an error. -/
def executeTransform {μ : Type} (options : BlockOptions)
    (f : Nat → Except Err (Option μ)) : RetryRun (Option μ) :=
  executeWithRetry options f

/-- executeAction (src ActionBlock): the action function returns only an
error; the retry wrapper is identical to the transform one. -/
def executeAction (options : BlockOptions) (f : Nat → Except Err Unit) : RetryRun Unit :=
  executeWithRetry options f

example :
    (executeAction { DefaultBlockOptions with RetryPolicy := some ⟨3, 10⟩ }
      (fun _ => Except.error "e")).calls = 3 := by decide

example :
    (executeAction { DefaultBlockOptions with RetryPolicy := some ⟨3, 10⟩ }
      (fun _ => Except.error "e")).waits = [10, 20] := by decide

example :
    (executeAction { DefaultBlockOptions with RetryPolicy := some ⟨4, 10⟩ }
      (fun i => if i < 2 then Except.error "e" else Except.ok ())).calls = 3 := by decide

example :
    (executeAction DefaultBlockOptions (fun _ => Except.error "e")).calls = 1 := by decide

/-- accepts (src, the forwarding loop in process()): a link forwards a
message when it has no filter or its filter accepts the message
(Go: target.filter == nil || target.filter(msg)).  A Target is represented
by its optional filter; its channel is represented positionally by the
index of the target in the registered list. -/
def accepts {μ : Type} (filter : Option (μ → Bool)) (m : μ) : Bool :=
  match filter with
  | none => true
  | some flt => flt m

/-- The observable per-stage trace of one degree-1 worker run over the whole
input: for each registered target (in registration order), the list of
messages its channel received (in send order), and the arguments of the
Fault calls made by the worker (in order). -/
structure WorkerTrace (μ : Type) where
  outs : List (List μ)
  faults : List Err
deriving Repr, DecidableEq

/-- TransformBlock.process (src) at concurrency degree 1, with the context
never cancelled: the input channel delivers the listed messages and is then
closed.  Per message: executeTransform; on error, Fault and continue; on a
nil result, continue without forwarding; otherwise forward the result to
every accepting target.  The per-message user function is attempt-indexed
(see executeTransform). -/
def TransformBlockProcess {μ : Type} (options : BlockOptions)
    (transform : μ → Nat → Except Err (Option μ))
    (targets : List (Option (μ → Bool))) : List μ → WorkerTrace μ
  | [] => { outs := targets.map (fun _ => []), faults := [] }
  | m :: rest =>
    let tail := TransformBlockProcess options transform targets rest
    match (executeTransform options (transform m)).result with
    | Except.error e => { outs := tail.outs, faults := e :: tail.faults }
    | Except.ok none => tail
    | Except.ok (some r) =>
      { outs := List.zipWith (fun filt out => if accepts filt r then r :: out else out)
          targets tail.outs,
        faults := tail.faults }

/-- ActionBlock.process (src) at concurrency degree 1, same conventions as
TransformBlockProcess: on success of the action, the ORIGINAL input message
is forwarded to every accepting target. -/
def ActionBlockProcess {μ : Type} (options : BlockOptions)
    (action : μ → Nat → Except Err Unit)
    (targets : List (Option (μ → Bool))) : List μ → WorkerTrace μ
  | [] => { outs := targets.map (fun _ => []), faults := [] }
  | m :: rest =>
    let tail := ActionBlockProcess options action targets rest
    match (executeAction options (action m)).result with
    | Except.error e => { outs := tail.outs, faults := e :: tail.faults }
    | Except.ok _ =>
      { outs := List.zipWith (fun filt out => if accepts filt m then m :: out else out)
          targets tail.outs,
        faults := tail.faults }

/-- The outcome of processing one message inside the worker loop, as seen at
the level of process(): a (possibly nil) value to forward, an error from
exhausted retries, or a Go panic escaping the user function (which unwinds
past the retry loop to the deferred recover at the top of process()). -/
inductive StepResult (μ : Type) where
  | ok : Option μ → StepResult μ
  | err : Err → StepResult μ
  | panicked : Err → StepResult μ
deriving Repr, DecidableEq

/-- What a whole worker run leaves behind, panics included. -/
structure WorkerExit (μ : Type) where
  trace : WorkerTrace μ
  closesRun : Bool
  propagated : Bool
deriving Repr, DecidableEq

/-- TransformBlock.process (src) at degree 1 with the per-message outcome
abstracted by step, panics included.  A recovered panic (the deferred
func with recover() at the top of process()) records the converted error via
Fault and ends the worker: the loop is abandoned, so the remaining input is
not processed, while the same deferred function still closes the target
channels (closesRun) and the panic does not escape the worker
(propagated = false). -/
def processWithRecover {μ : Type} (step : μ → StepResult μ)
    (targets : List (Option (μ → Bool))) : List μ → WorkerExit μ
  | [] =>
    { trace := { outs := targets.map (fun _ => []), faults := [] },
      closesRun := true, propagated := false }
  | m :: rest =>
    match step m with
    | StepResult.panicked e =>
      { trace := { outs := targets.map (fun _ => []), faults := [e] },
        closesRun := true, propagated := false }
    | StepResult.err e =>
      let tail := processWithRecover step targets rest
      { tail with trace := { outs := tail.trace.outs, faults := e :: tail.trace.faults } }
    | StepResult.ok none => processWithRecover step targets rest
    | StepResult.ok (some r) =>
      let tail := processWithRecover step targets rest
      { tail with trace :=
          { outs := List.zipWith (fun filt out => if accepts filt r then r :: out else out)
              targets tail.trace.outs,
            faults := tail.trace.faults } }

/-- A concrete per-message behavior whose user function panics on message 0
and succeeds with the identity on every other message. -/
def stepPanic0 : Nat → StepResult Nat :=
  fun m => if m = 0 then StepResult.panicked "panic in TransformBlock: boom"
           else StepResult.ok (some m)

/-- The same behavior, except that message 0 fails through exhausted retries
instead of panicking. -/
def stepErr0 : Nat → StepResult Nat :=
  fun m => if m = 0 then StepResult.err "boom" else StepResult.ok (some m)

/-- The three block kinds of the pipeline package. -/
inductive BlockKind where
  | buffer
  | transform
  | action
deriving Repr, DecidableEq

/-- The target indices whose channels a SINGLE worker closes in the deferred
function run when its process() exits (src): BufferBlock.process and
TransformBlock.process run close(t.ch) for every registered target;
ActionBlock.process has no close loop in its deferred function. -/
def workerExitCloses : BlockKind → (targetCount : Nat) → List Nat
  | BlockKind.buffer, targetCount => List.range targetCount
  | BlockKind.transform, targetCount => List.range targetCount
  | BlockKind.action, _ => []

/-- How many times target t's channel is closed over the stage's lifetime:
each of the degree worker goroutines runs its deferred exit function exactly
once (src: wg.Add(ConcurrencyDegree) workers, each with the same defer). -/
def stageCloseCount (kind : BlockKind) (degree targetCount t : Nat) : Nat :=
  degree * (workerExitCloses kind targetCount).count t

/-- BaseBlock completion/fault state.  Modelled from the spec: the BaseBlock
implementation (NewBaseBlock, IsCompleted, Fault, SignalCompletion) is not
under src/ — only its call sites are.  Per the spec it carries a completion
flag and a first-fault value; per the call sites in src it is mutated only
by SignalCompletion (called from a worker exit path) and Fault
(first-fault-wins), and in particular Complete() in src never touches it. -/
structure BaseBlock where
  completed : Bool
  fault : Option Err
deriving Repr, DecidableEq

/-- Modelled from the spec: fresh BaseBlock state (NewBaseBlock is not under
src/); the concurrency tests in src Post successfully to fresh blocks, so a
fresh block is not completed. -/
def NewBaseBlock : BaseBlock := { completed := false, fault := none }

/-- Modelled from the spec: SignalCompletion (not under src/) marks the block
completed; it is called only from the deferred exit function of
BufferBlock.process and TransformBlock.process — ActionBlock.process (src)
never calls it. -/
def SignalCompletion (b : BaseBlock) : BaseBlock := { b with completed := true }

/-- Modelled from the spec: Fault (not under src/) records the first error
only (first-fault-wins). -/
def Fault (b : BaseBlock) (e : Err) : BaseBlock :=
  if b.fault.isSome then b else { b with fault := some e }

/-- Modelled from the spec: IsCompleted (not under src/) reads the completion
flag. -/
def IsCompleted (b : BaseBlock) : Bool := b.completed

/-- The state of a Go channel as seen by a non-blocking send. -/
structure ChanState where
  capacity : Nat
  buffered : Nat
  closed : Bool
  receiverReady : Bool
deriving Repr, DecidableEq

/-- Go select semantics: a send case is ready iff the channel is closed (the
send then panics), or a buffer slot is free, or — for an unbuffered
channel — a receiver is waiting at the rendezvous. -/
def sendReady (c : ChanState) : Bool :=
  c.closed || (if c.capacity = 0 then c.receiverReady else decide (c.buffered < c.capacity))

inductive PostOutcome where
  | accepted
  | rejected
  | panicked
deriving Repr, DecidableEq

/-- Post (src; the method body is textually identical on ActionBlock,
TransformBlock and BufferBlock): return false when IsCompleted(), otherwise
a select with a send case on the input channel and a default case.  In Go a
select send on a CLOSED channel is always ready and panics when executed;
the default case is taken only when no other case is ready. -/
def Post (base : BaseBlock) (input : ChanState) : PostOutcome :=
  if IsCompleted base then PostOutcome.rejected
  else if sendReady input then
    (if input.closed then PostOutcome.panicked else PostOutcome.accepted)
  else PostOutcome.rejected

/-- The lifecycle state of one block relevant to Post/Complete: the
(spec-modelled) BaseBlock state, the input channel, and the sync.Once guard
used by Complete (src). -/
structure StageState where
  base : BaseBlock
  input : ChanState
  stopDone : Bool
deriving Repr, DecidableEq

/-- A freshly constructed block (src New*Block): fresh BaseBlock, input
channel of the configured capacity, sync.Once not yet fired. -/
def NewStage (bufferSize : Nat) : StageState :=
  { base := NewBaseBlock,
    input := { capacity := bufferSize, buffered := 0, closed := false, receiverReady := false },
    stopDone := false }

/-- Complete (src; identical on all three blocks):
b.stopOnce.Do(func() { close(b.input) }).  Returns the new state together
with the number of close operations this call performed (in Go, a second
close of the same channel would panic, so that count staying at most 1 is
what "safe to call multiple times" means). -/
def Complete (s : StageState) : StageState × Nat :=
  if s.stopDone then (s, 0)
  else ({ s with stopDone := true, input := { s.input with closed := true } }, 1)

example : Post (NewStage 1).base (Complete (NewStage 1)).1.input = PostOutcome.panicked := by
  decide

example : stageCloseCount BlockKind.transform 2 1 0 = 2 := by decide
example : stageCloseCount BlockKind.action 1 1 0 = 0 := by decide

end Pipeline

namespace Dataflow

/-- Go evaluation of 1 << k at type int (64-bit): shifts compound as repeated
doubling with two's complement wrap, so the value is 2^k wrapped (0 once
k ≥ 64). -/
def goShl1 (k : Nat) : Int := wrap64 (2 ^ k)

/-- ExponentialBackoff (src, dataflow variant): the returned backoff function
yields the initial duration for attempt ≤ 1 and otherwise
initial * (1 << (attempt-1)), every operation in Go int64 arithmetic. -/
def ExponentialBackoff (initial : Int) : Int → Int :=
  fun attempt =>
    if attempt ≤ 1 then initial
    else wrap64 (initial * goShl1 (attempt - 1).toNat)

/-- ConstantBackoff (src, dataflow variant). -/
def ConstantBackoff (d : Int) : Int → Int := fun _ => d

example : ExponentialBackoff 10 0 = 10 := by decide
example : ExponentialBackoff 10 1 = 10 := by decide
example : ExponentialBackoff 10 2 = 20 := by decide
example : ExponentialBackoff 10 4 = 80 := by decide

end Dataflow

namespace Pipeline

/-- Full trace of the retry loop on an everywhere-failing user function:
all remaining attempts are used, one backoff sleep of
wrap64((attempt+1) * bo) separates consecutive attempts (when bo > 0), and
the final error is the one of the last attempt. -/
theorem retryLoopFrom_fail {β : Type} (es : Nat → Err) (bo : Int) :
    ∀ (remaining attempt : Nat) (lastE : Err), 1 ≤ remaining →
    retryLoopFrom (fun i => (Except.error (es i) : Except Err β)) bo remaining attempt lastE =
      { calls := remaining,
        waits := if 0 < bo then
            (List.range (remaining - 1)).map
              (fun j => wrap64 (((attempt + j + 1 : Nat) : Int) * bo))
          else [],
        result := Except.error (es (attempt + remaining - 1)) } := by
  intro remaining
  induction remaining with
  | zero => intro attempt lastE h; omega
  | succ n ih =>
    intro attempt lastE _
    cases n with
    | zero =>
      simp [retryLoopFrom]
    | succ m =>
      have hrw := ih (attempt + 1) (es attempt) (by omega)
      have hidx : attempt + 1 + (m + 1) - 1 = attempt + (m + 1 + 1) - 1 := by omega
      simp only [retryLoopFrom, hrw, hidx]
      congr 1
      · omega
      · by_cases hbo : 0 < bo
        · simp only [hbo, if_pos, Nat.add_sub_cancel, List.singleton_append]
          rw [List.range_succ_eq_map, List.map_cons, List.map_map]
          refine congrArg₂ List.cons ?_ ?_
          · exact congrArg wrap64 (by push_cast; ring)
          · refine congrArg (fun f => List.map f (List.range m)) (funext fun j => ?_)
            exact congrArg (fun n : Nat => wrap64 ((n : Int) * bo)) (by omega)
        · simp [hbo]

/-- Calls-count projection of retryLoopFrom_fail. -/
theorem retryLoopFrom_fail_calls {β : Type} (es : Nat → Err) (bo : Int)
    (remaining attempt : Nat) (lastE : Err) (h : 1 ≤ remaining) :
    (retryLoopFrom (fun i => (Except.error (es i) : Except Err β)) bo remaining attempt lastE).calls
      = remaining := by
  rw [retryLoopFrom_fail es bo remaining attempt lastE h]

/-- C3: for a transform or action stage whose retry policy has
maxAttempts = N (N ≥ 1), a function failing on every call is invoked exactly
N times before the stage records the fault; with no retry policy configured,
or maxAttempts ≤ 1, a failing function is invoked exactly once per message. -/
theorem C3_retry_invocation_count (p : RetryPolicy) (esT esA : Nat → Err) :
    (1 ≤ p.MaxRetries →
        (executeTransform { DefaultBlockOptions with RetryPolicy := some p }
          (fun i => (Except.error (esT i) : Except Err (Option Nat)))).calls = p.MaxRetries.toNat
      ∧ (executeAction { DefaultBlockOptions with RetryPolicy := some p }
          (fun i => Except.error (esA i))).calls = p.MaxRetries.toNat)
    ∧ (executeTransform DefaultBlockOptions
        (fun i => (Except.error (esT i) : Except Err (Option Nat)))).calls = 1
    ∧ (executeAction DefaultBlockOptions (fun i => Except.error (esA i))).calls = 1
    ∧ (p.MaxRetries ≤ 1 →
        (executeTransform { DefaultBlockOptions with RetryPolicy := some p }
          (fun i => (Except.error (esT i) : Except Err (Option Nat)))).calls = 1
      ∧ (executeAction { DefaultBlockOptions with RetryPolicy := some p }
          (fun i => Except.error (esA i))).calls = 1) := by
  refine ⟨fun h1 => ⟨?_, ?_⟩, by simp [executeTransform, executeWithRetry, DefaultBlockOptions],
    by simp [executeAction, executeWithRetry, DefaultBlockOptions], fun hle => ⟨?_, ?_⟩⟩
  · by_cases hle : p.MaxRetries ≤ 1
    · simp only [executeTransform, executeWithRetry, hle, if_true, ite_true]
      omega
    · simp only [executeTransform, executeWithRetry, hle, if_false, ite_false]
      exact retryLoopFrom_fail_calls esT p.Backoff p.MaxRetries.toNat 0 "" (by omega)
  · by_cases hle : p.MaxRetries ≤ 1
    · simp only [executeAction, executeWithRetry, hle, if_true, ite_true]
      omega
    · simp only [executeAction, executeWithRetry, hle, if_false, ite_false]
      exact retryLoopFrom_fail_calls esA p.Backoff p.MaxRetries.toNat 0 "" (by omega)
  · simp [executeTransform, executeWithRetry, hle]
  · simp [executeAction, executeWithRetry, hle]

theorem C3_retry_invocation_count_witness :
    (1 : Int) ≤ 3 ∧
    (executeTransform { DefaultBlockOptions with RetryPolicy := some ⟨3, 0⟩ }
      (fun _ => (Except.error "e" : Except Err (Option Nat)))).calls = (3 : Int).toNat :=
  ⟨by decide, ((C3_retry_invocation_count ⟨3, 0⟩ (fun _ => "e") (fun _ => "e")).1 (by decide)).1⟩

/-- wrap64 is the identity on values already in [0, 2^63). -/
theorem wrap64_eq_self (x : Int) (h0 : 0 ≤ x) (h1 : x < 2 ^ 63) : wrap64 x = x := by
  unfold wrap64
  have h3 : (2 : Int) ^ 64 = 2 * 2 ^ 63 := by norm_num
  have h4 : (x + 2 ^ 63) % 2 ^ 64 = x + 2 ^ 63 :=
    Int.emod_eq_of_lt (by linarith) (by linarith)
  rw [h4]
  ring

/-- C4 counterexample: with Backoff = 2^62 and maxAttempts = 3 on an
always-failing function, the code's second wait is computed by the int64
multiplication time.Duration(2) * 2^62, which wraps to -2^63, not the
claimed Backoff * 2 = 2^63: the wait durations are not the unbounded
products Backoff * (i+1). -/
theorem C4_backoff_overflow :
    (executeAction { DefaultBlockOptions with RetryPolicy := some ⟨3, 2 ^ 62⟩ }
        (fun _ => Except.error "e")).waits = [2 ^ 62, -(2 ^ 63)]
    ∧ (executeAction { DefaultBlockOptions with RetryPolicy := some ⟨3, 2 ^ 62⟩ }
        (fun _ => Except.error "e")).waits ≠ [1 * 2 ^ 62, 2 * 2 ^ 62] := by decide

/-- C4 amended: in the retry algorithm of transform and action stages, a
backoff wait happens between failed attempt i (0-based) and attempt i+1 only
when i+1 < maxAttempts, its duration is the configured nominal backoff value
scaled linearly by the attempt number and computed in Go int64
(time.Duration) arithmetic — wrap64(Backoff * (i+1)), which equals
Backoff * (i+1) whenever even the largest such product stays below 2^63 —
and no wait occurs after the final attempt: the wait list of a run
exhausting N attempts is exactly [wrap64(Backoff*1), ...,
wrap64(Backoff*(N-1))]. -/
theorem C4_backoff_schedule (p : RetryPolicy) (esT esA : Nat → Err)
    (h2 : 2 ≤ p.MaxRetries) (hb : 0 < p.Backoff) :
    (executeTransform { DefaultBlockOptions with RetryPolicy := some p }
        (fun i => (Except.error (esT i) : Except Err (Option Nat)))).waits
      = (List.range (p.MaxRetries.toNat - 1)).map
          (fun (j : Nat) => wrap64 (((j : Int) + 1) * p.Backoff))
    ∧ (executeAction { DefaultBlockOptions with RetryPolicy := some p }
        (fun i => Except.error (esA i))).waits
      = (List.range (p.MaxRetries.toNat - 1)).map
          (fun (j : Nat) => wrap64 (((j : Int) + 1) * p.Backoff))
    ∧ (executeTransform { DefaultBlockOptions with RetryPolicy := some p }
        (fun i => (Except.error (esT i) : Except Err (Option Nat)))).waits.length
      = p.MaxRetries.toNat - 1
    ∧ (((p.MaxRetries.toNat - 1 : Nat) : Int) * p.Backoff < 2 ^ 63 →
        (executeTransform { DefaultBlockOptions with RetryPolicy := some p }
            (fun i => (Except.error (esT i) : Except Err (Option Nat)))).waits
          = (List.range (p.MaxRetries.toNat - 1)).map
              (fun (j : Nat) => ((j : Int) + 1) * p.Backoff)) := by
  have hle : ¬ p.MaxRetries ≤ 1 := by omega
  have hT : (executeTransform { DefaultBlockOptions with RetryPolicy := some p }
      (fun i => (Except.error (esT i) : Except Err (Option Nat)))).waits
      = (List.range (p.MaxRetries.toNat - 1)).map
          (fun (j : Nat) => wrap64 (((j : Int) + 1) * p.Backoff)) := by
    simp only [executeTransform, executeWithRetry, hle, if_false, ite_false]
    rw [retryLoopFrom_fail esT p.Backoff p.MaxRetries.toNat 0 "" (by omega)]
    dsimp only
    rw [if_pos hb]
    refine congrArg (fun f => List.map f (List.range (p.MaxRetries.toNat - 1)))
      (funext fun j => ?_)
    exact congrArg wrap64 (by push_cast; ring)
  have hA : (executeAction { DefaultBlockOptions with RetryPolicy := some p }
      (fun i => Except.error (esA i))).waits
      = (List.range (p.MaxRetries.toNat - 1)).map
          (fun (j : Nat) => wrap64 (((j : Int) + 1) * p.Backoff)) := by
    simp only [executeAction, executeWithRetry, hle, if_false, ite_false]
    rw [retryLoopFrom_fail esA p.Backoff p.MaxRetries.toNat 0 "" (by omega)]
    dsimp only
    rw [if_pos hb]
    refine congrArg (fun f => List.map f (List.range (p.MaxRetries.toNat - 1)))
      (funext fun j => ?_)
    exact congrArg wrap64 (by push_cast; ring)
  refine ⟨hT, hA, by rw [hT]; simp, fun hbound => ?_⟩
  rw [hT]
  refine List.map_congr_left fun j hj => ?_
  rw [List.mem_range] at hj
  have hj1 : ((j : Int) + 1) ≤ ((p.MaxRetries.toNat - 1 : Nat) : Int) := by omega
  have hle2 : ((j : Int) + 1) * p.Backoff ≤ ((p.MaxRetries.toNat - 1 : Nat) : Int) * p.Backoff :=
    mul_le_mul_of_nonneg_right hj1 (le_of_lt hb)
  have h0 : 0 ≤ ((j : Int) + 1) * p.Backoff :=
    mul_nonneg (by omega) (le_of_lt hb)
  exact wrap64_eq_self _ h0 (lt_of_le_of_lt hle2 hbound)

theorem C4_backoff_schedule_witness :
    (0 : Int) < 10 ∧
    (executeAction { DefaultBlockOptions with RetryPolicy := some ⟨3, 10⟩ }
      (fun _ => (Except.error "e" : Except Err Unit))).waits = [10, 20] :=
  ⟨by decide,
    ((C4_backoff_schedule ⟨3, 10⟩ (fun _ => "e") (fun _ => "e") (by decide) (by decide)).2.1).trans
      (by decide)⟩

/-- C5: when retries exhaust for one message in a transform or action stage,
the recorded Fault argument is the last error, the message is not forwarded
to any link (outs are those of the remaining input alone), and the worker
continues with the next input message, whose processing is unaffected by the
recorded fault. -/
theorem C5_fault_isolation {μ : Type} (options : BlockOptions)
    (transform : μ → Nat → Except Err (Option μ)) (action : μ → Nat → Except Err Unit)
    (targets : List (Option (μ → Bool))) (m : μ) (rest : List μ) (e : Err)
    (es : Nat → Err) (p : RetryPolicy) :
    ((executeTransform options (transform m)).result = Except.error e →
        TransformBlockProcess options transform targets (m :: rest)
          = { outs := (TransformBlockProcess options transform targets rest).outs,
              faults := e :: (TransformBlockProcess options transform targets rest).faults })
    ∧ ((executeAction options (action m)).result = Except.error e →
        ActionBlockProcess options action targets (m :: rest)
          = { outs := (ActionBlockProcess options action targets rest).outs,
              faults := e :: (ActionBlockProcess options action targets rest).faults })
    ∧ (2 ≤ p.MaxRetries →
        (executeTransform { DefaultBlockOptions with RetryPolicy := some p }
            (fun i => (Except.error (es i) : Except Err (Option μ)))).result
          = Except.error (es (p.MaxRetries.toNat - 1))) := by
  refine ⟨fun h => ?_, fun h => ?_, fun h2 => ?_⟩
  · simp only [TransformBlockProcess, h]
  · simp only [ActionBlockProcess, h]
  · have hle : ¬ p.MaxRetries ≤ 1 := by omega
    simp only [executeTransform, executeWithRetry, hle, if_false, ite_false]
    rw [retryLoopFrom_fail es p.Backoff p.MaxRetries.toNat 0 "" (by omega)]
    dsimp only
    exact congrArg (fun i => Except.error (es i)) (by omega)

theorem C5_fault_isolation_witness :
    TransformBlockProcess { DefaultBlockOptions with RetryPolicy := some ⟨2, 0⟩ }
        (fun m _ => if m = 7 then Except.error "bad" else Except.ok (some m))
        [none] [7, 8]
      = { outs := [[8]], faults := ["bad"] } := by
  have h := (C5_fault_isolation { DefaultBlockOptions with RetryPolicy := some (⟨2, 0⟩ : RetryPolicy) }
      (fun m _ => if m = 7 then Except.error "bad" else Except.ok (some m))
      (fun _ _ => Except.ok ()) [none] 7 [8] "bad" (fun _ => "bad") ⟨2, 0⟩).1 (by decide)
  rw [h]
  decide

/-- zipWith of a list against a pointwise image of itself is a map. -/
theorem zipWith_self_map {α β γ : Type} (f : α → β → γ) (g : α → β) :
    ∀ l : List α, List.zipWith f l (l.map g) = l.map (fun a => f a (g a))
  | [] => rfl
  | a :: l => by
    rw [List.map_cons, List.zipWith_cons_cons, zipWith_self_map f g l, List.map_cons]

/-- C9: when an action stage's function succeeds on a message (possibly after
retries), the ORIGINAL input message — not any transformed value — is
forwarded to every registered link whose filter is absent or accepts it:
each link receives exactly the accepted original inputs, in input order. -/
theorem C9_action_forwards_original {μ : Type} (options : BlockOptions)
    (action : μ → Nat → Except Err Unit) (targets : List (Option (μ → Bool))) :
    ∀ inputs : List μ,
      (ActionBlockProcess options action targets inputs).outs
        = targets.map (fun filt => inputs.filterMap (fun m =>
            match (executeAction options (action m)).result with
            | Except.ok _ => if accepts filt m then some m else none
            | Except.error _ => none)) := by
  intro inputs
  induction inputs with
  | nil => simp [ActionBlockProcess]
  | cons m rest ih =>
    cases hres : (executeAction options (action m)).result with
    | error e =>
      simp only [ActionBlockProcess, hres, ih]
      refine congrArg (fun f => List.map f targets) (funext fun filt => ?_)
      rw [List.filterMap_cons]
      simp [hres]
    | ok u =>
      simp only [ActionBlockProcess, hres, ih]
      rw [zipWith_self_map]
      refine congrArg (fun f => List.map f targets) (funext fun filt => ?_)
      rw [List.filterMap_cons]
      by_cases hacc : accepts filt m
      · simp [hres, hacc]
      · simp [hres, hacc]

/-- C8: a degree-1 transform stage forwards, on each outgoing link, exactly
the successful accepted results in strict input order (FIFO); consequently a
chain of degree-1 identity-transform stages outputs its input list
unchanged. -/
theorem C8_fifo_degree_one :
    (∀ (μ : Type) (options : BlockOptions) (transform : μ → Nat → Except Err (Option μ))
        (targets : List (Option (μ → Bool))) (inputs : List μ),
      (TransformBlockProcess options transform targets inputs).outs
        = targets.map (fun filt => inputs.filterMap (fun m =>
            match (executeTransform options (transform m)).result with
            | Except.ok (some r) => if accepts filt r then some r else none
            | Except.ok none => none
            | Except.error _ => none)))
    ∧ (∀ (inputs : List Nat) (k : Nat),
        (fun l => ((TransformBlockProcess DefaultBlockOptions
            (fun m _ => Except.ok (some m)) [none] l).outs).getD 0 [])^[k] inputs = inputs) := by
  have h1 : ∀ (μ : Type) (options : BlockOptions) (transform : μ → Nat → Except Err (Option μ))
      (targets : List (Option (μ → Bool))) (inputs : List μ),
      (TransformBlockProcess options transform targets inputs).outs
        = targets.map (fun filt => inputs.filterMap (fun m =>
            match (executeTransform options (transform m)).result with
            | Except.ok (some r) => if accepts filt r then some r else none
            | Except.ok none => none
            | Except.error _ => none)) := by
    intro μ options transform targets inputs
    induction inputs with
    | nil => simp [TransformBlockProcess]
    | cons m rest ih =>
      cases hres : (executeTransform options (transform m)).result with
      | error e =>
        simp only [TransformBlockProcess, hres, ih]
        refine congrArg (fun f => List.map f targets) (funext fun filt => ?_)
        rw [List.filterMap_cons]
        simp [hres]
      | ok o =>
        cases o with
        | none =>
          simp only [TransformBlockProcess, hres, ih]
          refine congrArg (fun f => List.map f targets) (funext fun filt => ?_)
          rw [List.filterMap_cons]
          simp [hres]
        | some r =>
          simp only [TransformBlockProcess, hres, ih]
          rw [zipWith_self_map]
          refine congrArg (fun f => List.map f targets) (funext fun filt => ?_)
          rw [List.filterMap_cons]
          by_cases hacc : accepts filt r
          · simp [hres, hacc]
          · simp [hres, hacc]
  refine ⟨h1, ?_⟩
  have hstep : ∀ inputs : List Nat,
      ((TransformBlockProcess DefaultBlockOptions
          (fun m _ => Except.ok (some m)) [none] inputs).outs).getD 0 [] = inputs := by
    intro inputs
    rw [h1]
    simp only [List.map_cons, List.map_nil, List.getD]
    simp [executeTransform, executeWithRetry, DefaultBlockOptions, accepts]
  intro inputs k
  induction k with
  | zero => rfl
  | succ k ih =>
    rw [Function.iterate_succ_apply, hstep inputs]
    exact ih

/-- C6: Complete() is idempotent: it closes the input channel exactly once
under the sync.Once guard (so a second or concurrent call performs no second
close — which in Go would panic), and the stage state after two calls equals
the state after one call. -/
theorem C6_complete_idempotent :
    ∀ (s : StageState) (n : Nat),
      (Complete (Complete s).1).1 = (Complete s).1
      ∧ (Complete (Complete s).1).2 = 0
      ∧ (Complete s).2 ≤ 1
      ∧ (Complete (NewStage n)).2 = 1
      ∧ ((Complete (NewStage n)).1).input.closed = true := by
  intro s n
  by_cases h : s.stopDone <;> simp [Complete, NewStage, NewBaseBlock, h]

/-- C1 (evaluation at the failing input): Post on a freshly constructed
stage right after Complete() does not return false — the select send case on
the closed input channel is chosen and panics — while the full-buffer,
rendezvous-without-receiver and free-slot cases behave as claimed (reject,
reject, accept). -/
theorem C1_post_after_complete_panics :
    Post (Complete (NewStage 0)).1.base (Complete (NewStage 0)).1.input = PostOutcome.panicked
    ∧ Post NewBaseBlock { capacity := 1, buffered := 1, closed := false, receiverReady := false }
        = PostOutcome.rejected
    ∧ Post NewBaseBlock { capacity := 0, buffered := 0, closed := false, receiverReady := false }
        = PostOutcome.rejected
    ∧ Post NewBaseBlock { capacity := 1, buffered := 0, closed := false, receiverReady := false }
        = PostOutcome.accepted := by decide

/-- C2 (evaluation at the failing input): over a stage lifetime each target
channel is closed once per worker for transform and buffer stages (twice at
degree 2 — in Go the second close panics) and never for action stages; only
a degree-1 transform or buffer stage closes exactly once. -/
theorem C2_close_count :
    stageCloseCount BlockKind.transform 2 1 0 = 2
    ∧ stageCloseCount BlockKind.buffer 3 2 1 = 3
    ∧ stageCloseCount BlockKind.action 1 1 0 = 0
    ∧ stageCloseCount BlockKind.transform 1 1 0 = 1 := by decide

/-- C7 counterexample: a recovered panic is NOT treated identically to an
exhausted-retry fault.  With messages [0, 1] and an unfiltered link, message
0 failing by exhausted retries still lets message 1 be forwarded, while
message 0 panicking ends the worker and message 1 is never forwarded. -/
theorem C7_panic_not_identical :
    (processWithRecover stepPanic0 [none] [0, 1]).trace.outs
      ≠ (processWithRecover stepErr0 [none] [0, 1]).trace.outs := by decide

/-- C7 amended: a panic inside a stage's worker function is recovered,
converted to an error, recorded via Fault, and never propagates out of the
worker (the deferred close of targets still runs); but unlike an
exhausted-retry fault — after which the worker continues with the next
message — a recovered panic ends the worker loop, so the remaining input is
not processed.  In both cases nothing is forwarded for the failing message
and the process never crashes. -/
theorem C7_panic_recovered {μ : Type} (step : μ → StepResult μ)
    (targets : List (Option (μ → Bool))) (m : μ) (rest : List μ) (e : Err) :
    (step m = StepResult.panicked e →
        processWithRecover step targets (m :: rest)
          = { trace := { outs := targets.map (fun _ => []), faults := [e] },
              closesRun := true, propagated := false })
    ∧ (step m = StepResult.err e →
        processWithRecover step targets (m :: rest)
          = { trace :=
                { outs := (processWithRecover step targets rest).trace.outs,
                  faults := e :: (processWithRecover step targets rest).trace.faults },
              closesRun := (processWithRecover step targets rest).closesRun,
              propagated := (processWithRecover step targets rest).propagated })
    ∧ (∀ inputs : List μ,
        (processWithRecover step targets inputs).propagated = false
        ∧ (processWithRecover step targets inputs).closesRun = true) := by
  refine ⟨fun h => ?_, fun h => ?_, fun inputs => ?_⟩
  · simp [processWithRecover, h]
  · simp [processWithRecover, h]
  · induction inputs with
    | nil => exact ⟨rfl, rfl⟩
    | cons m2 rest2 ih =>
      obtain ⟨ih1, ih2⟩ := ih
      cases hs : step m2 with
      | panicked e2 => simp [processWithRecover, hs]
      | err e2 => simp [processWithRecover, hs, ih1, ih2]
      | ok o =>
        cases o with
        | none => simp [processWithRecover, hs, ih1, ih2]
        | some r => simp [processWithRecover, hs, ih1, ih2]

theorem C7_panic_recovered_witness :
    processWithRecover stepPanic0 [none] [0, 1]
      = { trace := { outs := [[]], faults := ["panic in TransformBlock: boom"] },
          closesRun := true, propagated := false } := by
  have h := (C7_panic_recovered stepPanic0 [none] 0 [1] "panic in TransformBlock: boom").1
    (by decide)
  rw [h]
  decide

end Pipeline

namespace Dataflow

/-- wrap64 is the identity modulo 2^64. -/
theorem wrap64_modeq (x : Int) : wrap64 x ≡ x [ZMOD (2 ^ 64 : Int)] := by
  have h1 : ((x + 2 ^ 63) % 2 ^ 64 : Int) ≡ x + 2 ^ 63 [ZMOD (2 ^ 64 : Int)] :=
    Int.emod_emod_of_dvd _ dvd_rfl
  have h2 := h1.sub_right (2 ^ 63 : Int)
  simpa [wrap64] using h2

/-- wrap64 lands in the int64 range. -/
theorem wrap64_range (x : Int) : -(2 ^ 63) ≤ wrap64 x ∧ wrap64 x < 2 ^ 63 := by
  unfold wrap64
  have h1 : (0 : Int) ≤ (x + 2 ^ 63) % 2 ^ 64 := Int.emod_nonneg _ (by norm_num)
  have h2 : ((x + 2 ^ 63) % 2 ^ 64 : Int) < 2 ^ 64 := Int.emod_lt_of_pos _ (by norm_num)
  have h3 : (2 : Int) ^ 64 = 2 * 2 ^ 63 := by norm_num
  constructor <;> linarith

/-- C10: in the dataflow variant, ExponentialBackoff(d) returns d for attempt
indices ≤ 1 and d * 2^(attempt-1) for attempt indices ≥ 2, computed in
64-bit two's complement arithmetic (a left shift then a multiplication), so
the doubling wraps modulo 2^64 and the result always lies in the int64
range; the backoff function itself owns all scaling. -/
theorem C10_exponential_backoff (d attempt : Int) :
    (attempt ≤ 1 → ExponentialBackoff d attempt = d)
    ∧ (2 ≤ attempt →
        ExponentialBackoff d attempt ≡ d * 2 ^ (attempt - 1).toNat [ZMOD (2 ^ 64 : Int)]
        ∧ -(2 ^ 63) ≤ ExponentialBackoff d attempt
        ∧ ExponentialBackoff d attempt < 2 ^ 63) := by
  constructor
  · intro h
    simp [ExponentialBackoff, h]
  · intro h
    have hgt : ¬ attempt ≤ 1 := by omega
    have hmod : ExponentialBackoff d attempt ≡ d * 2 ^ (attempt - 1).toNat [ZMOD (2 ^ 64 : Int)] := by
      unfold ExponentialBackoff goShl1
      rw [if_neg hgt]
      calc wrap64 (d * wrap64 (2 ^ (attempt - 1).toNat))
          ≡ d * wrap64 (2 ^ (attempt - 1).toNat) [ZMOD (2 ^ 64 : Int)] := wrap64_modeq _
        _ ≡ d * 2 ^ (attempt - 1).toNat [ZMOD (2 ^ 64 : Int)] := (wrap64_modeq _).mul_left d
    refine ⟨hmod, ?_, ?_⟩
    · unfold ExponentialBackoff
      rw [if_neg hgt]
      exact (wrap64_range _).1
    · unfold ExponentialBackoff
      rw [if_neg hgt]
      exact (wrap64_range _).2

theorem C10_exponential_backoff_witness :
    (2 : Int) ≤ 5
    ∧ ExponentialBackoff 10 5 ≡ 10 * 2 ^ ((5 : Int) - 1).toNat [ZMOD (2 ^ 64 : Int)] :=
  ⟨by decide, ((C10_exponential_backoff 10 5).2 (by decide)).1⟩

end Dataflow
